import Mathlib

/-!
Verification of the output-tracker library (innoave/output-tracker).

The library broadcasts emitted items to a registry of tracker stores.
We embed the data model and operations of the crate:

* `TrackerHandle` and its atomic counter (src/tracker_handle.rs);
* `BasicTracker`, the append-only store (src/inner_tracker/mod.rs);
* `BasicSubject`, the ordered registry of (handle, store) pairs
  (src/inner_subject/mod.rs);
* the non-threadsafe variant's `RefCell`-based access layer and its public
  operations (src/non_threadsafe/mod.rs);
* the threadsafe variant's try-lock spin loops (src/threadsafe/mod.rs).
-/

namespace OutputTrackerSpec

/-- The number of values of a `u64`, the width of the handle counter. -/
def U64 : Nat := 2 ^ 64

/-- Embeds `TrackerHandle` (src/tracker_handle.rs): an opaque value wrapping
a `u64` issued from the process-wide atomic counter `HANDLE_ID`.  Comparison
is derived value equality, exactly as the derived `PartialEq`/`Eq`. -/
structure TrackerHandle where
  val : Nat
deriving DecidableEq

/-- Embeds `TrackerHandle::new` (src/tracker_handle.rs, lines 8-12):
`HANDLE_ID.fetch_add(1, AcqRel)` returns the old register value and stores
the old value plus one, wrapping modulo 2^64.  The model keeps the counter
as an unbounded `Nat` whose value modulo `U64` is the machine register, so
the issued handle is `counter % U64` and the next model counter is
`counter + 1`. -/
def TrackerHandle.new (counter : Nat) : TrackerHandle × Nat :=
  (⟨counter % U64⟩, counter + 1)

/-- Embeds `BasicTracker<M>` (src/inner_tracker/mod.rs, lines 38-41): the
append-only, clearable ordered log of tracked items. -/
structure BasicTracker (M : Type) where
  tracked : List M
deriving DecidableEq

variable {M : Type}

/-- Embeds `BasicTracker::new` (src/inner_tracker/mod.rs, lines 44-48). -/
def BasicTracker.new : BasicTracker M := ⟨[]⟩

/-- Embeds `BasicTracker::output` (src/inner_tracker/mod.rs, lines 50-55):
returns the tracked items in insertion order. -/
def BasicTracker.output (t : BasicTracker M) : List M := t.tracked

/-- Embeds `BasicTracker::clear` (src/inner_tracker/mod.rs, lines 57-59):
`Vec::clear` empties the log. -/
def BasicTracker.clear (_t : BasicTracker M) : BasicTracker M := ⟨[]⟩

/-- Embeds `<BasicTracker as Tracker>::track` (src/inner_tracker/mod.rs,
lines 62-66): `Vec::push` appends the item at the end. -/
def BasicTracker.track (t : BasicTracker M) (data : M) : BasicTracker M :=
  ⟨t.tracked ++ [data]⟩

/-- A `std::cell::RefCell` together with its runtime borrow flag: `0` means
no borrow is outstanding, a positive flag counts outstanding shared borrows,
and a negative flag marks an outstanding mutable borrow.  `try_borrow`
succeeds iff the flag is not negative; `try_borrow_mut` succeeds iff the
flag is `0`. -/
structure RefCell (α : Type) where
  value : α
  borrowFlag : Int
deriving DecidableEq

/-- Embeds `BasicSubject<M, T>` (src/inner_subject/mod.rs, lines 46-50): the
insertion-ordered registry of `(TrackerHandle, T)` pairs.  In the concrete
variants `T` is a reference-counted pointer to a tracker cell; the model
represents that pointer as an index (a `Nat`) into the heap of store cells,
so the registry needs no type parameters here (`M` is phantom in the
source). -/
structure BasicSubject where
  trackers : List (TrackerHandle × Nat)
deriving DecidableEq

/-- Embeds `BasicSubject::new` (src/inner_subject/mod.rs, lines 59-64). -/
def BasicSubject.new : BasicSubject := ⟨[]⟩

/-- Embeds `BasicSubject::add_tracker` (src/inner_subject/mod.rs, lines
70-74): issues a fresh handle from the global counter and pushes the
`(handle, tracker)` pair at the end of the registry; returns the handle,
the new registry and the new counter. -/
def BasicSubject.add_tracker (s : BasicSubject) (tracker : Nat) (counter : Nat) :
    TrackerHandle × BasicSubject × Nat :=
  let hc := TrackerHandle.new counter
  (hc.1, ⟨s.trackers ++ [(hc.1, tracker)]⟩, hc.2)

/-- Embeds `BasicSubject::remove_tracker` (src/inner_subject/mod.rs, lines
76-81): `position` finds the first pair whose handle matches and `remove`
deletes it; when no pair matches nothing happens.  This is exactly
`List.eraseP` on the first matching handle. -/
def BasicSubject.remove_tracker (s : BasicSubject) (tracker : TrackerHandle) :
    BasicSubject :=
  ⟨s.trackers.eraseP (fun p => p.1 == tracker)⟩

/-- Embeds the error enumeration of the non-threadsafe variant
(src/non_threadsafe/mod.rs, lines 13-27). -/
inductive Error where
  | BorrowTrackerFailed
  | BorrowMutTrackerFailed
  | BorrowSubjectFailed
  | BorrowMutSubjectFailed
deriving DecidableEq

/-- The reachable heap of the non-threadsafe variant: the global handle
counter, the subject cell (the target of `Rc<RefCell<BasicSubject>>`) and
the tracker store cells (targets of `Rc<RefCell<BasicTracker<M>>>`),
addressed by index.  `Rc` never deallocates a store that a facade still
references, so the heap only grows. -/
structure NtState (M : Type) where
  counter : Nat
  subject : RefCell BasicSubject
  stores : List (RefCell (BasicTracker M))
deriving DecidableEq

/-- Embeds the data of the `OutputTracker` facade (src/non_threadsafe/mod.rs,
lines 42-47): its issued handle and the heap index of its own store cell
(its clone of the `NonThreadsafeTracker`).  The back-reference to the
subject is the ambient `NtState`. -/
structure OutputTracker where
  handle : TrackerHandle
  sid : Nat
deriving DecidableEq

/-- Embeds `OutputSubject::create_tracker` (src/non_threadsafe/mod.rs, lines
127-131): a fresh store cell is allocated, then `CelledSubject::add_tracker`
(src/inner_subject/mod.rs, lines 20-26) takes a mutable borrow of the
subject cell via `try_borrow_mut` — failing with `BorrowMutSubjectFailed`
iff the borrow flag is nonzero — registers the clone of the new cell and
releases the borrow.  On failure the fresh cell is dropped, so the heap is
unchanged. -/
def createTracker (s : NtState M) : Except Error (OutputTracker × NtState M) :=
  let sid := s.stores.length
  if s.subject.borrowFlag = 0 then
    let r := s.subject.value.add_tracker sid s.counter
    Except.ok (⟨r.1, sid⟩,
      { counter := r.2.2
        subject := ⟨r.2.1, s.subject.borrowFlag⟩
        stores := s.stores ++ [⟨BasicTracker.new, 0⟩] })
  else Except.error Error.BorrowMutSubjectFailed

/-- Embeds `CelledTracker::track` (src/inner_tracker/mod.rs, lines 33-35)
on the store cell at heap index `sid`: `try_borrow_mut` fails with
`BorrowMutTrackerFailed` iff the cell's borrow flag is nonzero, otherwise
the item is appended and the borrow released.  A registry entry always
references a live cell (it holds an `Rc`), so the out-of-range branch is
unreachable from states built by the API. -/
def trackCell (stores : List (RefCell (BasicTracker M))) (sid : Nat) (data : M) :
    Except Error (List (RefCell (BasicTracker M))) :=
  match stores[sid]? with
  | some cell =>
    if cell.borrowFlag = 0 then
      Except.ok (stores.set sid (RefCell.mk (cell.value.track data) cell.borrowFlag))
    else Except.error Error.BorrowMutTrackerFailed
  | none => Except.error Error.BorrowMutTrackerFailed

/-- The broadcast loop of `CelledSubject::emit` (src/inner_subject/mod.rs,
lines 39-41): iterate the registered stores in registration order and track
a clone of the item on each; the first failure stops the loop and is
returned, while the appends already performed persist (the cells mutate in
place). -/
def emitLoop (stores : List (RefCell (BasicTracker M)))
    (regs : List (TrackerHandle × Nat)) (data : M) :
    List (RefCell (BasicTracker M)) × Option Error :=
  match regs with
  | [] => (stores, none)
  | p :: rest =>
    match trackCell stores p.2 data with
    | Except.ok stores2 => emitLoop stores2 rest data
    | Except.error e => (stores, some e)

/-- Embeds `CelledSubject::emit` (src/inner_subject/mod.rs, lines 33-43) for
the non-threadsafe subject: `subject()` takes a shared borrow of the subject
cell via `try_borrow` — failing with `BorrowSubjectFailed` iff a mutable
borrow is outstanding, i.e. the flag is negative — then broadcasts to every
registered store in registration order; the shared borrow is released when
the method returns, whether with `Ok` or with the first tracking error. -/
def emit (s : NtState M) (data : M) : NtState M × Option Error :=
  if 0 ≤ s.subject.borrowFlag then
    let r := emitLoop s.stores s.subject.value.trackers data
    ({ s with stores := r.1 }, r.2)
  else (s, some Error.BorrowSubjectFailed)

/-- Embeds `OutputTracker::output` (src/non_threadsafe/mod.rs, lines 86-91)
via `CelledTracker::output` (src/inner_tracker/mod.rs, lines 22-27): takes a
shared borrow of the tracker's own store cell — failing with
`BorrowTrackerFailed` iff a mutable borrow is outstanding — and returns a
copy of the tracked items. -/
def output (s : NtState M) (t : OutputTracker) : Except Error (List M) :=
  match s.stores[t.sid]? with
  | some cell =>
    if 0 ≤ cell.borrowFlag then Except.ok cell.value.output
    else Except.error Error.BorrowTrackerFailed
  | none => Except.error Error.BorrowTrackerFailed

/-- Embeds `OutputTracker::clear` (src/non_threadsafe/mod.rs, lines 74-76)
via `CelledTracker::clear` (src/inner_tracker/mod.rs, lines 29-31): takes a
mutable borrow of the tracker's own store cell — failing with
`BorrowMutTrackerFailed` iff the flag is nonzero — and empties the log. -/
def clear (s : NtState M) (t : OutputTracker) : Except Error (NtState M) :=
  match s.stores[t.sid]? with
  | some cell =>
    if cell.borrowFlag = 0 then
      Except.ok
        { s with stores := s.stores.set t.sid ⟨cell.value.clear, cell.borrowFlag⟩ }
    else Except.error Error.BorrowMutTrackerFailed
  | none => Except.error Error.BorrowMutTrackerFailed

/-- Embeds `OutputTracker::stop` (src/non_threadsafe/mod.rs, lines 66-68)
via `CelledSubject::remove_tracker` (src/inner_subject/mod.rs, lines 28-31):
takes a mutable borrow of the subject cell — failing with
`BorrowMutSubjectFailed` iff the flag is nonzero — and removes the first
registry pair carrying this tracker's handle. -/
def stop (s : NtState M) (t : OutputTracker) : Except Error (NtState M) :=
  if s.subject.borrowFlag = 0 then
    Except.ok
      { s with subject := ⟨s.subject.value.remove_tracker t.handle, s.subject.borrowFlag⟩ }
  else Except.error Error.BorrowMutSubjectFailed

/-- A sequence of `emit` calls; the first failure stops the sequence and is
returned together with the state at that point. -/
def emitAll (s : NtState M) : List M → NtState M × Option Error
  | [] => (s, none)
  | d :: ds =>
    match emit s d with
    | (s2, none) => emitAll s2 ds
    | (s2, some e) => (s2, some e)

/-- No access guard is outstanding on any cell: all borrow flags are zero.
This is the state between any two calls in straight-line sequential use of
the non-threadsafe API, since every operation releases its borrows before
returning. -/
def Accessible (s : NtState M) : Prop :=
  s.subject.borrowFlag = 0 ∧ ∀ c ∈ s.stores, c.borrowFlag = 0

/-- Structural invariant of states built by the API: every registry entry
references a live store cell, distinct registry entries reference distinct
store cells, and the registered handles are pairwise distinct. -/
def WellFormed (s : NtState M) : Prop :=
  (∀ p ∈ s.subject.value.trackers, p.2 < s.stores.length) ∧
  (s.subject.value.trackers.map Prod.snd).Nodup ∧
  (s.subject.value.trackers.map Prod.fst).Nodup

/-- Specification helper: the effect of appending `items` to a store cell,
leaving the borrow flag untouched. -/
def appendItems (items : List M) (c : RefCell (BasicTracker M)) :
    RefCell (BasicTracker M) :=
  ⟨⟨c.value.tracked ++ items⟩, c.borrowFlag⟩

/-- One registry operation as performed through the public API: an
`add_tracker` (by `create_tracker`) or a `remove_tracker` (by `stop`). -/
inductive RegOp where
  | add
  | remove (h : TrackerHandle)

/-- Runs a sequence of registry operations against a `BasicSubject`,
threading the global handle counter and accumulating the issued handles in
issue order.  An `add` registers a fresh store index, as `create_tracker`
does. -/
def runRegOps : List RegOp → Nat × BasicSubject × List TrackerHandle →
    Nat × BasicSubject × List TrackerHandle
  | [], st => st
  | RegOp.add :: ops, (c, subj, issued) =>
    let r := subj.add_tracker subj.trackers.length c
    runRegOps ops (r.2.2, r.2.1, issued ++ [r.1])
  | RegOp.remove h :: ops, (c, subj, issued) =>
    runRegOps ops (c, subj.remove_tracker h, issued)

/-- The number of `add` operations in a sequence. -/
def numAdds : List RegOp → Nat
  | [] => 0
  | RegOp.add :: ops => numAdds ops + 1
  | RegOp.remove _ :: ops => numAdds ops

/-- Handle-counter invariant: every issued and every registered handle is
below the counter, and both handle lists are duplicate-free. -/
def RegInv (c : Nat) (subj : BasicSubject) (issued : List TrackerHandle) : Prop :=
  (∀ h ∈ issued, h.val < c) ∧ issued.Nodup ∧
  (∀ h ∈ subj.trackers.map Prod.fst, h.val < c) ∧
  (subj.trackers.map Prod.fst).Nodup

/-- A heap of subject allocations next to the store heap.  A subject facade
value is the index of its allocation in `subjects`; clones of one
`OutputSubject` hold the same index. -/
structure World (M : Type) where
  counter : Nat
  subjects : List (RefCell BasicSubject)
  stores : List (RefCell (BasicTracker M))
deriving DecidableEq

/-- Embeds `Clone` for `OutputSubject` and `NonThreadsafeSubject`
(src/non_threadsafe/mod.rs, lines 103-106 and 141-144): the derived clone
clones the inner `Rc` field, and `Rc::clone` returns a pointer to the same
allocation — it never duplicates the pointed-to `BasicSubject`.  Since a
subject value is its allocation's index, cloning returns the same index and
touches nothing. -/
def cloneSubject (r : Nat) : Nat := r

/-- The single-subject state seen through the subject allocation `cell` of a
world. -/
def subjectView (w : World M) (cell : RefCell BasicSubject) : NtState M :=
  ⟨w.counter, cell, w.stores⟩

/-- `OutputSubject::create_tracker` called on the subject allocation at
index `r` of the world; the allocation is updated in place.  A live facade
always references a live allocation, so the out-of-range branch is
unreachable. -/
def createTrackerW (w : World M) (r : Nat) : Except Error (OutputTracker × World M) :=
  match w.subjects[r]? with
  | some cell =>
    match createTracker (subjectView w cell) with
    | Except.ok ts =>
      Except.ok (ts.1, ⟨ts.2.counter, w.subjects.set r ts.2.subject, ts.2.stores⟩)
    | Except.error e => Except.error e
  | none => Except.error Error.BorrowMutSubjectFailed

/-- `OutputSubject::emit` called on the subject allocation at index `r` of
the world. -/
def emitW (w : World M) (r : Nat) (data : M) : World M × Option Error :=
  match w.subjects[r]? with
  | some cell =>
    let res := emit (subjectView w cell) data
    (⟨res.1.counter, w.subjects.set r res.1.subject, res.1.stores⟩, res.2)
  | none => (w, some Error.BorrowSubjectFailed)

/-- A sequence of `emit` calls through a subject allocation of the world. -/
def emitAllW (w : World M) (r : Nat) : List M → World M × Option Error
  | [] => (w, none)
  | d :: ds =>
    match emitW w r d with
    | (w2, none) => emitAllW w2 r ds
    | (w2, some e) => (w2, some e)

/-- `OutputTracker::output` against the store heap of the world. -/
def outputW (w : World M) (t : OutputTracker) : Except Error (List M) :=
  match w.stores[t.sid]? with
  | some cell =>
    if 0 ≤ cell.borrowFlag then Except.ok cell.value.output
    else Except.error Error.BorrowTrackerFailed
  | none => Except.error Error.BorrowTrackerFailed

/-- Embeds the error enumeration of the threadsafe variant
(src/threadsafe/mod.rs, lines 11-19). -/
inductive TsError where
  | LockTrackerFailed
  | LockSubjectFailed
deriving DecidableEq

/-- What one `Mutex::try_lock` attempt observes (`std::sync::TryLockError`):
the mutex is free, held by another thread (`WouldBlock`), or poisoned. -/
inductive LockObs where
  | free
  | contended
  | poisoned
deriving DecidableEq

/-- Embeds the spin loops `ThreadsafeSubject::subject`
(src/threadsafe/mod.rs, lines 157-167) and `ThreadsafeTracker::tracker`
(lines 196-208), which differ only in the error value they return: given
the sequence of lock states that the repeated `try_lock` attempts observe,
the loop returns at the first observation that is not `WouldBlock` — `Ok`
on a free mutex, the lock-failed error on a poisoned one — and silently
retries on contention.  `none` means every attempt of the (finite observed)
trace was contended and the loop is still spinning. -/
def spinTryLock (e : TsError) : List LockObs → Option (Except TsError Unit)
  | [] => none
  | LockObs.free :: _ => some (Except.ok ())
  | LockObs.contended :: obs => spinTryLock e obs
  | LockObs.poisoned :: _ => some (Except.error e)

/-- Concrete state for witnesses: a subject with two registered trackers
(handles 0 and 1, stores 0 and 1), both stores empty, no borrows
outstanding. -/
def wSubject : NtState Int :=
  ⟨2, ⟨⟨[(⟨0⟩, 0), (⟨1⟩, 1)]⟩, 0⟩, [⟨⟨[]⟩, 0⟩, ⟨⟨[]⟩, 0⟩]⟩

/-- The first tracker of `wSubject`. -/
def wT1 : OutputTracker := ⟨⟨0⟩, 0⟩

/-- The second tracker of `wSubject`. -/
def wT2 : OutputTracker := ⟨⟨1⟩, 1⟩

/-- Concrete state for the fail-fast witness: three registered trackers,
the middle store cell has an outstanding mutable borrow (flag `-1`). -/
def fSubject : NtState Int :=
  ⟨3, ⟨⟨[(⟨0⟩, 0), (⟨1⟩, 1), (⟨2⟩, 2)]⟩, 0⟩,
    [⟨⟨[]⟩, 0⟩, ⟨⟨[]⟩, -1⟩, ⟨⟨[]⟩, 0⟩]⟩

/-- Concrete world for the clone witness: one subject allocation with an
empty registry, no stores yet. -/
def wWorld : World Int := ⟨0, [⟨⟨[]⟩, 0⟩], []⟩

/-! ### Lemmas about the broadcast loop -/

theorem appendItems_nil (c : RefCell (BasicTracker M)) : appendItems [] c = c := by
  cases c with
  | mk v f => cases v; simp [appendItems]

theorem appendItems_appendItems (xs ys : List M) (c : RefCell (BasicTracker M)) :
    appendItems ys (appendItems xs c) = appendItems (xs ++ ys) c := by
  simp [appendItems]

theorem appendItems_borrowFlag (items : List M) (c : RefCell (BasicTracker M)) :
    (appendItems items c).borrowFlag = c.borrowFlag := rfl

theorem emitLoop_free_front (data : M) :
    ∀ (regs1 : List (TrackerHandle × Nat)) (stores : List (RefCell (BasicTracker M))),
    (∀ p ∈ regs1, (stores[p.2]?).map RefCell.borrowFlag = some 0) →
    ∃ stores1 : List (RefCell (BasicTracker M)),
      (∀ rest, emitLoop stores (regs1 ++ rest) data = emitLoop stores1 rest data) ∧
      stores1.length = stores.length ∧
      (∀ i : Nat, stores1[i]? = (stores[i]?).map
        (appendItems (List.replicate ((regs1.map Prod.snd).count i) data))) := by
  intro regs1
  induction regs1 with
  | nil =>
    intro stores _
    refine ⟨stores, fun rest => rfl, rfl, fun i => ?_⟩
    cases h : stores[i]? with
    | none => rfl
    | some c => simp [appendItems_nil]
  | cons p tl ih =>
    intro stores hfree
    obtain ⟨cell, hcell, hflag⟩ := Option.map_eq_some'.1 (hfree p (by simp))
    have hlt : p.2 < stores.length := (List.getElem?_eq_some.1 hcell).1
    have htrack : trackCell stores p.2 data
        = Except.ok (stores.set p.2 (RefCell.mk (cell.value.track data) cell.borrowFlag)) := by
      simp [trackCell, hcell, hflag]
    have hflags : ∀ j : Nat,
        ((stores.set p.2 (RefCell.mk (cell.value.track data) cell.borrowFlag))[j]?).map RefCell.borrowFlag
          = (stores[j]?).map RefCell.borrowFlag := by
      intro j
      by_cases hj : p.2 = j
      · subst hj
        rw [List.getElem?_set_self hlt, hcell]
        rfl
      · rw [List.getElem?_set_ne hj]
    have hfree' : ∀ q ∈ tl,
        (((stores.set p.2 (RefCell.mk (cell.value.track data) cell.borrowFlag)))[q.2]?).map
          RefCell.borrowFlag = some 0 := by
      intro q hq
      rw [hflags]
      exact hfree q (by simp [hq])
    obtain ⟨stores1, hrun, hlen, hpt⟩ :=
      ih (stores.set p.2 (RefCell.mk (cell.value.track data) cell.borrowFlag)) hfree'
    refine ⟨stores1, ?_, ?_, ?_⟩
    · intro rest
      rw [List.cons_append]
      show emitLoop stores (p :: (tl ++ rest)) data = _
      simp only [emitLoop, htrack]
      exact hrun rest
    · rw [hlen, List.length_set]
    · intro i
      rw [hpt i]
      by_cases hi : p.2 = i
      · subst hi
        rw [List.getElem?_set_self hlt, hcell]
        simp [BasicTracker.track, List.count_cons, List.replicate_succ, appendItems]
      · rw [List.getElem?_set_ne hi]
        have hne : ((p.2 : Nat) == i) = false := by
          simp [hi]
        simp [List.count_cons, hne]

theorem free_front_of_accessible (s : NtState M)
    (hacc : Accessible s)
    (hval : ∀ p ∈ s.subject.value.trackers, p.2 < s.stores.length) :
    ∀ p ∈ s.subject.value.trackers,
      (s.stores[p.2]?).map RefCell.borrowFlag = some 0 := by
  intro p hp
  have hlt := hval p hp
  simp [List.getElem?_eq_getElem hlt, hacc.2 _ (List.getElem_mem hlt)]

/-- A successful broadcast: from a state with no outstanding borrows and a
valid registry, `emit` returns no error, leaves the counter, the subject
cell and the heap size unchanged, and appends one copy of the item to each
store per registry entry referencing it. -/
theorem emit_ok (s : NtState M) (data : M)
    (hacc : Accessible s)
    (hval : ∀ p ∈ s.subject.value.trackers, p.2 < s.stores.length) :
    (emit s data).2 = none ∧
    (emit s data).1.counter = s.counter ∧
    (emit s data).1.subject = s.subject ∧
    (emit s data).1.stores.length = s.stores.length ∧
    ∀ i : Nat, (emit s data).1.stores[i]? = (s.stores[i]?).map
      (appendItems
        (List.replicate ((s.subject.value.trackers.map Prod.snd).count i) data)) := by
  obtain ⟨stores1, hrun, hlen, hpt⟩ :=
    emitLoop_free_front data s.subject.value.trackers s.stores
      (free_front_of_accessible s hacc hval)
  have hloop : emitLoop s.stores s.subject.value.trackers data = (stores1, none) := by
    have h := hrun []
    rwa [List.append_nil] at h
  have hemit : emit s data = ({ s with stores := stores1 }, none) := by
    simp [emit, hacc.1, hloop]
  rw [hemit]
  exact ⟨rfl, rfl, rfl, hlen, hpt⟩

/-- A sequence of successful broadcasts: with pairwise-distinct registered
stores, each registered store receives exactly the emitted items in
emission order, and unregistered stores are untouched. -/
theorem emitAll_ok (items : List M) :
    ∀ (s : NtState M), Accessible s →
    (∀ p ∈ s.subject.value.trackers, p.2 < s.stores.length) →
    (s.subject.value.trackers.map Prod.snd).Nodup →
    (emitAll s items).2 = none ∧
    (emitAll s items).1.counter = s.counter ∧
    (emitAll s items).1.subject = s.subject ∧
    (emitAll s items).1.stores.length = s.stores.length ∧
    ∀ i : Nat, (emitAll s items).1.stores[i]? = (s.stores[i]?).map
      (appendItems
        (if i ∈ s.subject.value.trackers.map Prod.snd then items else [])) := by
  induction items with
  | nil =>
    intro s _ _ _
    refine ⟨rfl, rfl, rfl, rfl, fun i => ?_⟩
    show s.stores[i]? = _
    cases hc : s.stores[i]? with
    | none => rfl
    | some c => simp [appendItems_nil]
  | cons d ds ih =>
    intro s hacc hval hnodup
    obtain ⟨h0, h1, h2, h3, h4⟩ := emit_ok s d hacc hval
    have hemit : emit s d = ((emit s d).1, none) := by
      rw [← h0]
    have hstep : emitAll s (d :: ds) = emitAll (emit s d).1 ds := by
      rw [emitAll, hemit]
    have hacc1 : Accessible (emit s d).1 := by
      constructor
      · rw [h2]; exact hacc.1
      · intro c hc
        obtain ⟨n, hn⟩ := List.mem_iff_getElem?.1 hc
        rw [h4 n] at hn
        obtain ⟨c0, hc0, hfc⟩ := Option.map_eq_some'.1 hn
        have hm : c0 ∈ s.stores := by
          obtain ⟨hlt, he⟩ := List.getElem?_eq_some.1 hc0
          exact he ▸ List.getElem_mem hlt
        rw [← hfc, appendItems_borrowFlag]
        exact hacc.2 c0 hm
    have hval1 : ∀ p ∈ (emit s d).1.subject.value.trackers,
        p.2 < (emit s d).1.stores.length := by
      rw [h2, h3]; exact hval
    have hnodup1 : ((emit s d).1.subject.value.trackers.map Prod.snd).Nodup := by
      rw [h2]; exact hnodup
    obtain ⟨g0, g1, g2, g3, g4⟩ := ih (emit s d).1 hacc1 hval1 hnodup1
    rw [h2] at g4
    refine ⟨?_, ?_, ?_, ?_, ?_⟩
    · rw [hstep]; exact g0
    · rw [hstep, g1, h1]
    · rw [hstep, g2, h2]
    · rw [hstep, g3, h3]
    · intro i
      rw [hstep, g4 i, h4 i, Option.map_map]
      cases hc : s.stores[i]? with
      | none => rfl
      | some c =>
        by_cases hm : i ∈ s.subject.value.trackers.map Prod.snd
        · simp [hm, List.count_eq_one_of_mem hnodup hm, Function.comp,
            appendItems_appendItems]
        · simp [hm, List.count_eq_zero.2 hm, Function.comp, appendItems_nil]

/-- A broadcast that fails at a registered store whose cell has an
outstanding borrow: the stores before the failing entry have already
received the item, `emit` returns the tracking failure, and no later store
receives the item. -/
theorem emit_fail_mid (s : NtState M) (data : M)
    (regs1 regs2 : List (TrackerHandle × Nat)) (h0 : TrackerHandle) (sid0 : Nat)
    (cbad : RefCell (BasicTracker M))
    (hreg : s.subject.value.trackers = regs1 ++ (h0, sid0) :: regs2)
    (hflag : 0 ≤ s.subject.borrowFlag)
    (hfree : ∀ p ∈ regs1, (s.stores[p.2]?).map RefCell.borrowFlag = some 0)
    (hbad : s.stores[sid0]? = some cbad) (hbadflag : cbad.borrowFlag ≠ 0) :
    (emit s data).2 = some Error.BorrowMutTrackerFailed ∧
    ∀ i : Nat, (emit s data).1.stores[i]? = (s.stores[i]?).map
      (appendItems (List.replicate ((regs1.map Prod.snd).count i) data)) := by
  obtain ⟨stores1, hrun, hlen, hpt⟩ := emitLoop_free_front data regs1 s.stores hfree
  have hbad1 : stores1[sid0]? = some
      (appendItems (List.replicate ((regs1.map Prod.snd).count sid0) data) cbad) := by
    rw [hpt sid0, hbad]; rfl
  have htrack : trackCell stores1 sid0 data
      = Except.error Error.BorrowMutTrackerFailed := by
    simp [trackCell, hbad1, appendItems_borrowFlag, hbadflag]
  have hloop : emitLoop s.stores (regs1 ++ (h0, sid0) :: regs2) data
      = (stores1, some Error.BorrowMutTrackerFailed) := by
    rw [hrun ((h0, sid0) :: regs2)]
    simp [emitLoop, htrack]
  have hemit : emit s data
      = ({ s with stores := stores1 }, some Error.BorrowMutTrackerFailed) := by
    simp only [emit, if_pos hflag, hreg, hloop]
  rw [hemit]
  exact ⟨rfl, hpt⟩

/-! ### Lemmas about registry removal and the simple operations -/

theorem remove_tracker_of_not_mem (s : BasicSubject) (h : TrackerHandle)
    (hno : h ∉ s.trackers.map Prod.fst) :
    s.remove_tracker h = s := by
  have hall : ∀ p ∈ s.trackers, ¬((fun p : TrackerHandle × Nat => p.1 == h) p = true) := by
    intro p hp hph
    apply hno
    have hp1 : p.1 = h := by simpa using hph
    exact hp1 ▸ List.mem_map_of_mem Prod.fst hp
  show (⟨s.trackers.eraseP _⟩ : BasicSubject) = s
  rw [List.eraseP_of_forall_not hall]

theorem remove_tracker_mem (s : BasicSubject) (t : TrackerHandle) (sid : Nat)
    (hmem : (t, sid) ∈ s.trackers)
    (hnodup : (s.trackers.map Prod.fst).Nodup) :
    ∃ l1 l2, s.trackers = l1 ++ (t, sid) :: l2 ∧
      (s.remove_tracker t).trackers = l1 ++ l2 ∧
      t ∉ (l1 ++ l2).map Prod.fst := by
  obtain ⟨a, l1, l2, hforall, hpa, hl, herase⟩ :=
    List.exists_of_eraseP (p := fun p : TrackerHandle × Nat => p.1 == t) hmem (by simp)
  have hat : a.1 = t := by simpa using hpa
  rcases List.mem_append.1 (by rw [← hl]; exact hmem) with hin1 | hin2
  · exact absurd (by simp) (hforall _ hin1)
  · rcases List.mem_cons.1 hin2 with heq | hin2
    · subst heq
      have hmap : s.trackers.map Prod.fst
          = l1.map Prod.fst ++ t :: l2.map Prod.fst := by
        rw [hl]; simp
      rw [hmap] at hnodup
      have hnd := List.nodup_middle.1 hnodup
      have hnot : t ∉ l1.map Prod.fst ++ l2.map Prod.fst := (List.nodup_cons.1 hnd).1
      refine ⟨l1, l2, hl, herase, ?_⟩
      rw [List.map_append]
      exact hnot
    · exfalso
      have hmap : s.trackers.map Prod.fst
          = l1.map Prod.fst ++ a.1 :: l2.map Prod.fst := by
        rw [hl]; simp
      rw [hmap] at hnodup
      have hnd := List.nodup_middle.1 hnodup
      have hnot : a.1 ∉ l1.map Prod.fst ++ l2.map Prod.fst := (List.nodup_cons.1 hnd).1
      apply hnot
      apply List.mem_append.2
      refine Or.inr ?_
      have := List.mem_map_of_mem Prod.fst hin2
      rwa [← hat] at this

theorem stop_ok (s : NtState M) (t : OutputTracker)
    (hflag : s.subject.borrowFlag = 0) :
    stop s t = Except.ok
      { s with subject :=
          ⟨s.subject.value.remove_tracker t.handle, s.subject.borrowFlag⟩ } := by
  simp [stop, hflag]

theorem clear_ok (s : NtState M) (t : OutputTracker) (cell : RefCell (BasicTracker M))
    (hc : s.stores[t.sid]? = some cell) (hflag : cell.borrowFlag = 0) :
    clear s t = Except.ok
      { s with stores :=
          s.stores.set t.sid (RefCell.mk cell.value.clear cell.borrowFlag) } := by
  simp [clear, hc, hflag]

theorem output_ok (s : NtState M) (t : OutputTracker) (cell : RefCell (BasicTracker M))
    (hc : s.stores[t.sid]? = some cell) (hflag : 0 ≤ cell.borrowFlag) :
    output s t = Except.ok cell.value.tracked := by
  simp [output, hc, hflag, BasicTracker.output]

theorem mem_of_getElem?_eq {α : Type} {l : List α} {i : Nat} {c : α}
    (h : l[i]? = some c) : c ∈ l := by
  obtain ⟨hlt, he⟩ := List.getElem?_eq_some.1 h
  exact he ▸ List.getElem_mem hlt

theorem mem_of_mem_removed {α : Type} {l1 l2 : List α} {a p : α}
    (hp : p ∈ l1 ++ l2) : p ∈ l1 ++ a :: l2 := by
  rcases List.mem_append.1 hp with h | h
  · exact List.mem_append.2 (Or.inl h)
  · exact List.mem_append.2 (Or.inr (List.mem_cons_of_mem _ h))

theorem emit_accessible (s : NtState M) (data : M) (hacc : Accessible s)
    (hval : ∀ p ∈ s.subject.value.trackers, p.2 < s.stores.length) :
    Accessible (emit s data).1 := by
  obtain ⟨h0, h1, h2, h3, h4⟩ := emit_ok s data hacc hval
  constructor
  · rw [h2]; exact hacc.1
  · intro c hc
    obtain ⟨n, hn⟩ := List.mem_iff_getElem?.1 hc
    rw [h4 n] at hn
    obtain ⟨c0, hc0, hfc⟩ := Option.map_eq_some'.1 hn
    rw [← hfc, appendItems_borrowFlag]
    exact hacc.2 c0 (mem_of_getElem?_eq hc0)

/-- After a successful emit sequence, a registered tracker's store holds its
previous items followed by all emitted items in emission order. -/
theorem output_after_emitAll (s : NtState M) (t : OutputTracker) (items : List M)
    (cell : RefCell (BasicTracker M))
    (hacc : Accessible s)
    (hval : ∀ p ∈ s.subject.value.trackers, p.2 < s.stores.length)
    (hsnodup : (s.subject.value.trackers.map Prod.snd).Nodup)
    (hreg : (t.handle, t.sid) ∈ s.subject.value.trackers)
    (hcell : s.stores[t.sid]? = some cell) :
    (emitAll s items).2 = none ∧
    output (emitAll s items).1 t = Except.ok (cell.value.tracked ++ items) := by
  obtain ⟨h0, h1, h2, h3, h4⟩ := emitAll_ok items s hacc hval hsnodup
  refine ⟨h0, ?_⟩
  have hmem : t.sid ∈ s.subject.value.trackers.map Prod.snd :=
    List.mem_map_of_mem Prod.snd hreg
  have hc1 : (emitAll s items).1.stores[t.sid]? = some (appendItems items cell) := by
    rw [h4 t.sid, hcell]
    simp [hmem]
  have hflag : (0:Int) ≤ (appendItems items cell).borrowFlag := by
    rw [appendItems_borrowFlag, hacc.2 cell (mem_of_getElem?_eq hcell)]
  rw [output_ok _ t _ hc1 hflag]
  rfl

/-- After a successful emit sequence, a store that is not registered is
untouched, and its tracker's output is unchanged. -/
theorem output_after_emitAll_unreg (s : NtState M) (t : OutputTracker)
    (items : List M) (cell : RefCell (BasicTracker M))
    (hacc : Accessible s)
    (hval : ∀ p ∈ s.subject.value.trackers, p.2 < s.stores.length)
    (hsnodup : (s.subject.value.trackers.map Prod.snd).Nodup)
    (hnot : t.sid ∉ s.subject.value.trackers.map Prod.snd)
    (hcell : s.stores[t.sid]? = some cell) :
    (emitAll s items).2 = none ∧
    (emitAll s items).1.stores[t.sid]? = some cell ∧
    output (emitAll s items).1 t = Except.ok cell.value.tracked := by
  obtain ⟨h0, h1, h2, h3, h4⟩ := emitAll_ok items s hacc hval hsnodup
  have hc1 : (emitAll s items).1.stores[t.sid]? = some cell := by
    rw [h4 t.sid, hcell]
    simp [hnot, appendItems_nil]
  have hflag : (0:Int) ≤ cell.borrowFlag := by
    rw [hacc.2 cell (mem_of_getElem?_eq hcell)]
  exact ⟨h0, hc1, output_ok _ t _ hc1 hflag⟩

/-- A successful stop decomposes the registry at the tracker's pair and
the removed handle no longer occurs. -/
theorem stop_state (s : NtState M) (t : OutputTracker)
    (hflag : s.subject.borrowFlag = 0)
    (hmem : (t.handle, t.sid) ∈ s.subject.value.trackers)
    (hfnodup : (s.subject.value.trackers.map Prod.fst).Nodup) :
    ∃ s1 l1 l2, stop s t = Except.ok s1 ∧
      s1.stores = s.stores ∧
      s1.counter = s.counter ∧
      s1.subject.borrowFlag = s.subject.borrowFlag ∧
      s.subject.value.trackers = l1 ++ (t.handle, t.sid) :: l2 ∧
      s1.subject.value.trackers = l1 ++ l2 ∧
      t.handle ∉ (l1 ++ l2).map Prod.fst := by
  obtain ⟨l1, l2, hl, he, hn⟩ :=
    remove_tracker_mem s.subject.value t.handle t.sid hmem hfnodup
  exact ⟨_, l1, l2, stop_ok s t hflag, rfl, rfl, rfl, hl, he, hn⟩

/-- Given a duplicate-free store-index list, the removed tracker's store
index no longer occurs after removal of its registry pair. -/
theorem sid_not_mem_after (l1 l2 : List (TrackerHandle × Nat)) (t : OutputTracker)
    (full : List (TrackerHandle × Nat))
    (hl : full = l1 ++ (t.handle, t.sid) :: l2)
    (hsnodup : (full.map Prod.snd).Nodup) :
    t.sid ∉ (l1 ++ l2).map Prod.snd ∧ ((l1 ++ l2).map Prod.snd).Nodup := by
  rw [hl] at hsnodup
  have hmap : ((l1 ++ (t.handle, t.sid) :: l2).map Prod.snd)
      = l1.map Prod.snd ++ t.sid :: l2.map Prod.snd := by simp
  rw [hmap] at hsnodup
  have hnd := List.nodup_middle.1 hsnodup
  constructor
  · rw [List.map_append]
    exact (List.nodup_cons.1 hnd).1
  · rw [List.map_append]
    exact (List.nodup_cons.1 hnd).2

theorem forall_flag_set (stores : List (RefCell (BasicTracker M))) (i : Nat)
    (c : RefCell (BasicTracker M))
    (h : ∀ x ∈ stores, x.borrowFlag = 0) (hc : c.borrowFlag = 0) :
    ∀ x ∈ stores.set i c, x.borrowFlag = 0 := by
  intro x hx
  rcases List.mem_or_eq_of_mem_set hx with h1 | h2
  · exact h x h1
  · rw [h2]; exact hc

/-! ### The claims -/

/-- C1: For every sequence of items emitted on a Subject, every tracker
created before those emits (its store is still empty) and never stopped (it
is registered and only the emits happen in between) reports exactly those
items, in emission order, via `output()`.  The statement quantifies over
every such tracker of the subject, so when several exist each one's
`output()` equals that same sequence. -/
theorem nt_output_reports_emissions_in_order (s : NtState M) (t : OutputTracker)
    (items : List M) (cell : RefCell (BasicTracker M))
    (hacc : Accessible s) (hwf : WellFormed s)
    (hreg : (t.handle, t.sid) ∈ s.subject.value.trackers)
    (hcell : s.stores[t.sid]? = some cell)
    (hempty : cell.value.tracked = []) :
    (emitAll s items).2 = none ∧
    output (emitAll s items).1 t = Except.ok items := by
  obtain ⟨h0, hout⟩ :=
    output_after_emitAll s t items cell hacc hwf.1 hwf.2.1 hreg hcell
  rw [hempty] at hout
  exact ⟨h0, by simpa using hout⟩

theorem nt_output_reports_emissions_in_order_witness :
    (emitAll wSubject [1, 2, 3]).2 = none ∧
    output (emitAll wSubject [1, 2, 3]).1 wT2 = Except.ok [1, 2, 3] :=
  nt_output_reports_emissions_in_order wSubject wT2 [1, 2, 3]
    (RefCell.mk (BasicTracker.mk []) 0)
    ⟨rfl, by decide⟩ ⟨by decide, by decide, by decide⟩ (by decide) (by decide) rfl

/-- C2: If during a broadcast the append on some registered store fails
through the concurrency-cell layer (the store cell has an outstanding
borrow), `emit` returns that failure immediately: stores earlier in
registration order have already received the item, while the failing store
and all stores later in registration order do not receive it. -/
theorem nt_emit_fail_fast (s : NtState M) (data : M)
    (regs1 regs2 : List (TrackerHandle × Nat)) (h0 : TrackerHandle) (sid0 : Nat)
    (cbad : RefCell (BasicTracker M))
    (hreg : s.subject.value.trackers = regs1 ++ (h0, sid0) :: regs2)
    (hsnodup : (s.subject.value.trackers.map Prod.snd).Nodup)
    (hflag : 0 ≤ s.subject.borrowFlag)
    (hfree : ∀ p ∈ regs1, (s.stores[p.2]?).map RefCell.borrowFlag = some 0)
    (hbad : s.stores[sid0]? = some cbad) (hbadflag : cbad.borrowFlag ≠ 0) :
    (emit s data).2 = some Error.BorrowMutTrackerFailed ∧
    (∀ p ∈ regs1, (emit s data).1.stores[p.2]?
      = (s.stores[p.2]?).map (appendItems [data])) ∧
    (emit s data).1.stores[sid0]? = some cbad ∧
    (∀ p ∈ regs2, (emit s data).1.stores[p.2]? = s.stores[p.2]?) := by
  obtain ⟨herr, hpt⟩ :=
    emit_fail_mid s data regs1 regs2 h0 sid0 cbad hreg hflag hfree hbad hbadflag
  rw [hreg] at hsnodup
  have hmap : ((regs1 ++ (h0, sid0) :: regs2).map Prod.snd)
      = regs1.map Prod.snd ++ sid0 :: regs2.map Prod.snd := by simp
  rw [hmap] at hsnodup
  obtain ⟨hnd1, hnd2, hdisj⟩ := List.nodup_append.1 hsnodup
  refine ⟨herr, ?_, ?_, ?_⟩
  · intro p hp
    rw [hpt p.2,
      List.count_eq_one_of_mem hnd1 (List.mem_map_of_mem Prod.snd hp)]
    rfl
  · have hnot : sid0 ∉ regs1.map Prod.snd := by
      intro hmem
      exact (hdisj hmem) (List.mem_cons_self _ _)
    rw [hpt sid0, hbad, List.count_eq_zero.2 hnot]
    simp [appendItems_nil]
  · intro p hp
    have hnot : p.2 ∉ regs1.map Prod.snd := by
      intro hmem
      exact (hdisj hmem) (List.mem_cons_of_mem _ (List.mem_map_of_mem Prod.snd hp))
    rw [hpt p.2, List.count_eq_zero.2 hnot]
    cases hcp : s.stores[p.2]? with
    | none => rfl
    | some c => simp [appendItems_nil]

theorem nt_emit_fail_fast_witness :
    (emit fSubject 7).2 = some Error.BorrowMutTrackerFailed ∧
    (∀ p ∈ [(({ val := 0 } : TrackerHandle), 0)], (emit fSubject 7).1.stores[p.2]?
      = (fSubject.stores[p.2]?).map (appendItems [7])) ∧
    (emit fSubject 7).1.stores[1]? = some (RefCell.mk (BasicTracker.mk []) (-1)) ∧
    (∀ p ∈ [(({ val := 2 } : TrackerHandle), 2)],
      (emit fSubject 7).1.stores[p.2]? = fSubject.stores[p.2]?) :=
  nt_emit_fail_fast fSubject 7 [({ val := 0 }, 0)] [({ val := 2 }, 2)]
    { val := 1 } 1 (RefCell.mk (BasicTracker.mk []) (-1))
    (by decide) (by decide) (by decide) (by decide) (by decide) (by decide)

/-- C5: Immediately after a successful `clear()` the tracker's `output()` is
the empty sequence; items emitted after the clear appear in `output()`
normally, as a fresh sequence in emission order; items emitted before the
clear are gone; and `clear()` leaves the subject cell — and therefore the
tracker's registration in the registry — untouched. -/
theorem nt_clear_resets_output (s : NtState M) (t : OutputTracker)
    (items : List M) (cell : RefCell (BasicTracker M))
    (hacc : Accessible s) (hwf : WellFormed s)
    (hreg : (t.handle, t.sid) ∈ s.subject.value.trackers)
    (hcell : s.stores[t.sid]? = some cell) :
    ∃ s1, clear s t = Except.ok s1 ∧
      s1.subject = s.subject ∧
      output s1 t = Except.ok [] ∧
      (emitAll s1 items).2 = none ∧
      output (emitAll s1 items).1 t = Except.ok items := by
  have hflag : cell.borrowFlag = 0 := hacc.2 cell (mem_of_getElem?_eq hcell)
  have hlt : t.sid < s.stores.length := (List.getElem?_eq_some.1 hcell).1
  set c1 : RefCell (BasicTracker M) := RefCell.mk cell.value.clear cell.borrowFlag with hc1def
  set s1 : NtState M := { s with stores := s.stores.set t.sid c1 } with hs1def
  have hclear : clear s t = Except.ok s1 := clear_ok s t cell hcell hflag
  have hcell1 : s1.stores[t.sid]? = some c1 := List.getElem?_set_self hlt
  have hf1 : c1.borrowFlag = 0 := hflag
  have hacc1 : Accessible s1 := ⟨hacc.1, forall_flag_set _ _ _ hacc.2 hflag⟩
  have hval1 : ∀ p ∈ s1.subject.value.trackers, p.2 < s1.stores.length := by
    show ∀ p ∈ s.subject.value.trackers, p.2 < (s.stores.set t.sid c1).length
    rw [List.length_set]
    exact hwf.1
  obtain ⟨hall, hout⟩ :=
    output_after_emitAll s1 t items c1 hacc1 hval1 hwf.2.1 hreg hcell1
  refine ⟨s1, hclear, rfl, ?_, hall, ?_⟩
  · rw [output_ok s1 t c1 hcell1 (by rw [hf1])]
    rfl
  · simpa using hout

theorem nt_clear_resets_output_witness :
    ∃ s1, clear wSubject wT1 = Except.ok s1 ∧
      s1.subject = wSubject.subject ∧
      output s1 wT1 = Except.ok [] ∧
      (emitAll s1 [4, 5]).2 = none ∧
      output (emitAll s1 [4, 5]).1 wT1 = Except.ok [4, 5] :=
  nt_clear_resets_output wSubject wT1 [4, 5] (RefCell.mk (BasicTracker.mk []) 0)
    ⟨rfl, by decide⟩ ⟨by decide, by decide, by decide⟩ (by decide) (by decide)

/-- C10: In the non-threadsafe variant, every public operation —
`create_tracker`, `emit`, `output`, `clear`, `stop` — returns `Ok` when
invoked on a state with no access guard outstanding (all borrow flags zero,
as between any two sequential calls) and a valid registry and tracker: the
borrow-conflict error branches are not taken, and the borrow taken by each
operation is released again (the resulting state is again guard-free). -/
theorem nt_sequential_ops_ok (s : NtState M) (t : OutputTracker) (d : M)
    (hacc : Accessible s)
    (hval : ∀ p ∈ s.subject.value.trackers, p.2 < s.stores.length)
    (hsid : t.sid < s.stores.length) :
    (∃ r, createTracker s = Except.ok r ∧ Accessible r.2) ∧
    ((emit s d).2 = none ∧ Accessible (emit s d).1) ∧
    (∃ v, output s t = Except.ok v) ∧
    (∃ s2, clear s t = Except.ok s2 ∧ Accessible s2) ∧
    (∃ s3, stop s t = Except.ok s3 ∧ Accessible s3) := by
  have hcell : s.stores[t.sid]? = some (s.stores.get ⟨t.sid, hsid⟩) :=
    List.getElem?_eq_getElem hsid
  have hflag : (s.stores.get ⟨t.sid, hsid⟩).borrowFlag = 0 :=
    hacc.2 _ (List.getElem_mem hsid)
  refine ⟨?_, ?_, ?_, ?_, ?_⟩
  · have hct : createTracker s = Except.ok
        (⟨(s.subject.value.add_tracker s.stores.length s.counter).1, s.stores.length⟩,
          { counter := (s.subject.value.add_tracker s.stores.length s.counter).2.2
            subject :=
              ⟨(s.subject.value.add_tracker s.stores.length s.counter).2.1,
                s.subject.borrowFlag⟩
            stores := s.stores ++ [⟨BasicTracker.new, 0⟩] }) := by
      simp [createTracker, hacc.1]
    refine ⟨_, hct, hacc.1, ?_⟩
    intro c hc
    rcases List.mem_append.1 hc with h | h
    · exact hacc.2 c h
    · rw [List.mem_singleton.1 h]
  · exact ⟨(emit_ok s d hacc hval).1, emit_accessible s d hacc hval⟩
  · exact ⟨_, output_ok s t _ hcell (by rw [hflag])⟩
  · exact ⟨_, clear_ok s t _ hcell hflag,
      hacc.1, forall_flag_set _ _ _ hacc.2 hflag⟩
  · exact ⟨_, stop_ok s t hacc.1, hacc.1, hacc.2⟩

theorem nt_sequential_ops_ok_witness :
    (∃ r, createTracker wSubject = Except.ok r ∧ Accessible r.2) ∧
    ((emit wSubject 9).2 = none ∧ Accessible (emit wSubject 9).1) ∧
    (∃ v, output wSubject wT1 = Except.ok v) ∧
    (∃ s2, clear wSubject wT1 = Except.ok s2 ∧ Accessible s2) ∧
    (∃ s3, stop wSubject wT1 = Except.ok s3 ∧ Accessible s3) :=
  nt_sequential_ops_ok wSubject wT1 9 ⟨rfl, by decide⟩ (by decide) (by decide)

theorem remove_tracker_idem (v : BasicSubject) (h : TrackerHandle)
    (hfnodup : (v.trackers.map Prod.fst).Nodup) :
    (v.remove_tracker h).remove_tracker h = v.remove_tracker h := by
  by_cases hm : h ∈ v.trackers.map Prod.fst
  · obtain ⟨p, hp, hp1⟩ := List.mem_map.1 hm
    have hpair : (h, p.2) ∈ v.trackers := by
      have hpp : (h, p.2) = p := by rw [← hp1]
      rw [hpp]; exact hp
    obtain ⟨l1, l2, hl, he, hfn⟩ := remove_tracker_mem v h p.2 hpair hfnodup
    apply remove_tracker_of_not_mem
    rw [he]; exact hfn
  · rw [remove_tracker_of_not_mem v h hm]
    exact remove_tracker_of_not_mem v h hm

/-- C3: After a successful `stop()`, no item emitted afterwards on the
Subject ever appears in that tracker's `output()` (later emits leave its
store untouched), while all items tracked before the stop remain visible,
and `output()` and `clear()` continue to operate on the tracker's own
store. -/
theorem nt_stop_detaches_tracker (s : NtState M) (t : OutputTracker)
    (items : List M) (cell : RefCell (BasicTracker M))
    (hacc : Accessible s) (hwf : WellFormed s)
    (hreg : (t.handle, t.sid) ∈ s.subject.value.trackers)
    (hcell : s.stores[t.sid]? = some cell) :
    ∃ s1, stop s t = Except.ok s1 ∧
      s1.stores = s.stores ∧
      output s1 t = Except.ok cell.value.tracked ∧
      (emitAll s1 items).2 = none ∧
      output (emitAll s1 items).1 t = Except.ok cell.value.tracked ∧
      ∃ s2, clear (emitAll s1 items).1 t = Except.ok s2 := by
  obtain ⟨s1, l1, l2, hstop, hstores, hcounter, hflag1, hl, he, hfn⟩ :=
    stop_state s t hacc.1 hreg hwf.2.2
  obtain ⟨hsidnot, hsidnodup⟩ := sid_not_mem_after l1 l2 t _ hl hwf.2.1
  have hacc1 : Accessible s1 := by
    constructor
    · rw [hflag1]; exact hacc.1
    · rw [hstores]; exact hacc.2
  have hval1 : ∀ p ∈ s1.subject.value.trackers, p.2 < s1.stores.length := by
    rw [he, hstores]
    intro p hp
    exact hwf.1 p (by rw [hl]; exact mem_of_mem_removed hp)
  have hsnodup1 : (s1.subject.value.trackers.map Prod.snd).Nodup := by
    rw [he]; exact hsidnodup
  have hnot1 : t.sid ∉ s1.subject.value.trackers.map Prod.snd := by
    rw [he]; exact hsidnot
  have hcell1 : s1.stores[t.sid]? = some cell := by rw [hstores]; exact hcell
  have hflagc : (0:Int) ≤ cell.borrowFlag := by
    rw [hacc.2 cell (mem_of_getElem?_eq hcell)]
  obtain ⟨hall, hcell2, hout2⟩ :=
    output_after_emitAll_unreg s1 t items cell hacc1 hval1 hsnodup1 hnot1 hcell1
  refine ⟨s1, hstop, hstores, output_ok s1 t cell hcell1 hflagc, hall, hout2, ?_⟩
  exact ⟨_, clear_ok _ t cell hcell2 (hacc.2 cell (mem_of_getElem?_eq hcell))⟩

theorem nt_stop_detaches_tracker_witness :
    ∃ s1, stop wSubject wT1 = Except.ok s1 ∧
      s1.stores = wSubject.stores ∧
      output s1 wT1 = Except.ok [] ∧
      (emitAll s1 [8]).2 = none ∧
      output (emitAll s1 [8]).1 wT1 = Except.ok [] ∧
      ∃ s2, clear (emitAll s1 [8]).1 wT1 = Except.ok s2 :=
  nt_stop_detaches_tracker wSubject wT1 [8] (RefCell.mk (BasicTracker.mk []) 0)
    ⟨rfl, by decide⟩ ⟨by decide, by decide, by decide⟩ (by decide) (by decide)

/-- C4: Removing a handle that is absent from the registry is a silent
no-op leaving the registry — indeed the whole state — unchanged and is
never an error; consequently `stop()` is idempotent: it succeeds whenever
the subject cell can be borrowed, and the second and later calls change
nothing. -/
theorem nt_stop_idempotent (s : NtState M) (t : OutputTracker)
    (hflag : s.subject.borrowFlag = 0)
    (hfnodup : (s.subject.value.trackers.map Prod.fst).Nodup) :
    ∃ s1, stop s t = Except.ok s1 ∧ stop s1 t = Except.ok s1 ∧
      (t.handle ∉ s.subject.value.trackers.map Prod.fst → s1 = s) := by
  refine ⟨{ s with subject :=
      ⟨s.subject.value.remove_tracker t.handle, s.subject.borrowFlag⟩ },
    stop_ok s t hflag, ?_, ?_⟩
  · have h2 := stop_ok ({ s with subject :=
        ⟨s.subject.value.remove_tracker t.handle, s.subject.borrowFlag⟩ } : NtState M)
      t hflag
    rw [h2]
    simp [remove_tracker_idem s.subject.value t.handle hfnodup]
  · intro hno
    rw [remove_tracker_of_not_mem s.subject.value t.handle hno]

theorem nt_stop_idempotent_witness :
    ∃ s1, stop wSubject wT1 = Except.ok s1 ∧ stop s1 wT1 = Except.ok s1 ∧
      (wT1.handle ∉ wSubject.subject.value.trackers.map Prod.fst →
        s1 = wSubject) :=
  nt_stop_idempotent wSubject wT1 rfl (by decide)

/-- C9: For two distinct trackers on the same Subject, clearing or stopping
the first leaves the second's store contents and registration unchanged:
its `output()` is the same, and after the stop it still receives every
item of later emits. -/
theorem nt_clear_stop_frame (s : NtState M) (t1 t2 : OutputTracker)
    (items : List M) (cell2 : RefCell (BasicTracker M))
    (hacc : Accessible s) (hwf : WellFormed s)
    (hreg1 : (t1.handle, t1.sid) ∈ s.subject.value.trackers)
    (hreg2 : (t2.handle, t2.sid) ∈ s.subject.value.trackers)
    (hhne : t1.handle ≠ t2.handle) (hsne : t1.sid ≠ t2.sid)
    (hcell2 : s.stores[t2.sid]? = some cell2) :
    (∃ s1, clear s t1 = Except.ok s1 ∧ s1.subject = s.subject ∧
      output s1 t2 = Except.ok cell2.value.tracked) ∧
    (∃ s2, stop s t1 = Except.ok s2 ∧ s2.stores = s.stores ∧
      (t2.handle, t2.sid) ∈ s2.subject.value.trackers ∧
      output s2 t2 = Except.ok cell2.value.tracked ∧
      (emitAll s2 items).2 = none ∧
      output (emitAll s2 items).1 t2
        = Except.ok (cell2.value.tracked ++ items)) := by
  have hflag2 : (0:Int) ≤ cell2.borrowFlag := by
    rw [hacc.2 cell2 (mem_of_getElem?_eq hcell2)]
  constructor
  · have hlt1 : t1.sid < s.stores.length := hwf.1 _ hreg1
    have hcell1 : s.stores[t1.sid]? = some (s.stores.get ⟨t1.sid, hlt1⟩) :=
      List.getElem?_eq_getElem hlt1
    have hfl1 : (s.stores.get ⟨t1.sid, hlt1⟩).borrowFlag = 0 :=
      hacc.2 _ (List.getElem_mem hlt1)
    refine ⟨_, clear_ok s t1 _ hcell1 hfl1, rfl, ?_⟩
    have hc2 : (s.stores.set t1.sid
        (RefCell.mk (s.stores.get ⟨t1.sid, hlt1⟩).value.clear
          (s.stores.get ⟨t1.sid, hlt1⟩).borrowFlag))[t2.sid]? = some cell2 := by
      rw [List.getElem?_set_ne hsne]
      exact hcell2
    exact output_ok _ t2 cell2 hc2 hflag2
  · obtain ⟨s2, l1, l2, hstop, hstores, hcounter, hflag1, hl, he, hfn⟩ :=
      stop_state s t1 hacc.1 hreg1 hwf.2.2
    have hmem2 : (t2.handle, t2.sid) ∈ s2.subject.value.trackers := by
      rw [he]
      have hfull := hreg2
      rw [hl] at hfull
      rcases List.mem_append.1 hfull with h | h
      · exact List.mem_append.2 (Or.inl h)
      · rcases List.mem_cons.1 h with heq | h
        · exact absurd (congrArg Prod.fst heq).symm hhne
        · exact List.mem_append.2 (Or.inr h)
    have hacc2 : Accessible s2 :=
      ⟨by rw [hflag1]; exact hacc.1, by rw [hstores]; exact hacc.2⟩
    have hval2 : ∀ p ∈ s2.subject.value.trackers, p.2 < s2.stores.length := by
      rw [he, hstores]
      intro p hp
      exact hwf.1 p (by rw [hl]; exact mem_of_mem_removed hp)
    obtain ⟨hsidnot, hsidnodup⟩ := sid_not_mem_after l1 l2 t1 _ hl hwf.2.1
    have hsnodup2 : (s2.subject.value.trackers.map Prod.snd).Nodup := by
      rw [he]; exact hsidnodup
    have hcell2s : s2.stores[t2.sid]? = some cell2 := by
      rw [hstores]; exact hcell2
    obtain ⟨hall, hout⟩ :=
      output_after_emitAll s2 t2 items cell2 hacc2 hval2 hsnodup2 hmem2 hcell2s
    exact ⟨s2, hstop, hstores, hmem2,
      output_ok s2 t2 cell2 hcell2s hflag2, hall, hout⟩

theorem nt_clear_stop_frame_witness :
    (∃ s1, clear wSubject wT1 = Except.ok s1 ∧ s1.subject = wSubject.subject ∧
      output s1 wT2 = Except.ok []) ∧
    (∃ s2, stop wSubject wT1 = Except.ok s2 ∧ s2.stores = wSubject.stores ∧
      (wT2.handle, wT2.sid) ∈ s2.subject.value.trackers ∧
      output s2 wT2 = Except.ok [] ∧
      (emitAll s2 [6]).2 = none ∧
      output (emitAll s2 [6]).1 wT2 = Except.ok [6]) :=
  nt_clear_stop_frame wSubject wT1 wT2 [6] (RefCell.mk (BasicTracker.mk []) 0)
    ⟨rfl, by decide⟩ ⟨by decide, by decide, by decide⟩ (by decide) (by decide)
    (by decide) (by decide) (by decide)

theorem runRegOps_inv : ∀ (ops : List RegOp) (c : Nat) (subj : BasicSubject)
    (issued : List TrackerHandle),
    RegInv c subj issued → c + numAdds ops ≤ U64 →
    RegInv (runRegOps ops (c, subj, issued)).1
      (runRegOps ops (c, subj, issued)).2.1
      (runRegOps ops (c, subj, issued)).2.2 ∧
    (runRegOps ops (c, subj, issued)).2.2.length = issued.length + numAdds ops := by
  intro ops
  induction ops with
  | nil =>
    intro c subj issued hinv _
    exact ⟨hinv, rfl⟩
  | cons op ops ih =>
    intro c subj issued hinv hcap
    cases op with
    | add =>
      have hclt : c < U64 := by
        have hc : c + (numAdds ops + 1) ≤ U64 := by simpa [numAdds] using hcap
        omega
      have hmod : c % U64 = c := Nat.mod_eq_of_lt hclt
      have hstep : runRegOps (RegOp.add :: ops) (c, subj, issued)
          = runRegOps ops (c + 1,
              ⟨subj.trackers ++ [(⟨c % U64⟩, subj.trackers.length)]⟩,
              issued ++ [⟨c % U64⟩]) := rfl
      have hinv1 : RegInv (c + 1)
          (⟨subj.trackers ++ [(⟨c % U64⟩, subj.trackers.length)]⟩ : BasicSubject)
          (issued ++ [⟨c % U64⟩]) := by
        rw [hmod]
        obtain ⟨hi1, hi2, hr1, hr2⟩ := hinv
        refine ⟨?_, ?_, ?_, ?_⟩
        · intro h hm
          rcases List.mem_append.1 hm with hm | hm
          · exact Nat.lt_succ_of_lt (hi1 h hm)
          · rw [List.mem_singleton.1 hm]
            exact Nat.lt_succ_self c
        · rw [List.nodup_append]
          refine ⟨hi2, by simp, ?_⟩
          intro a ha ha2
          rw [List.mem_singleton.1 ha2] at ha
          exact absurd (hi1 _ ha) (by simp)
        · show ∀ h ∈ (subj.trackers
              ++ [((⟨c⟩ : TrackerHandle), subj.trackers.length)]).map Prod.fst,
            h.val < c + 1
          rw [List.map_append]
          intro h hm
          rcases List.mem_append.1 hm with hm | hm
          · exact Nat.lt_succ_of_lt (hr1 h hm)
          · rw [List.mem_singleton.1 hm]
            exact Nat.lt_succ_self c
        · show ((subj.trackers
              ++ [((⟨c⟩ : TrackerHandle), subj.trackers.length)]).map Prod.fst).Nodup
          rw [List.map_append, List.nodup_append]
          refine ⟨hr2, by simp, ?_⟩
          intro a ha ha2
          rw [List.mem_singleton.1 ha2] at ha
          exact absurd (hr1 _ ha) (by simp)
      have hcap1 : (c + 1) + numAdds ops ≤ U64 := by
        have hc : c + (numAdds ops + 1) ≤ U64 := by simpa [numAdds] using hcap
        omega
      obtain ⟨hinvf, hlenf⟩ := ih (c + 1) _ _ hinv1 hcap1
      rw [hstep]
      refine ⟨hinvf, ?_⟩
      rw [hlenf]
      simp [numAdds]
      omega
    | remove h =>
      have hstep : runRegOps (RegOp.remove h :: ops) (c, subj, issued)
          = runRegOps ops (c, subj.remove_tracker h, issued) := rfl
      have hsub : ((subj.remove_tracker h).trackers.map Prod.fst).Sublist
          (subj.trackers.map Prod.fst) :=
        List.Sublist.map Prod.fst (List.eraseP_sublist _)
      have hinv1 : RegInv c (subj.remove_tracker h) issued := by
        obtain ⟨hi1, hi2, hr1, hr2⟩ := hinv
        refine ⟨hi1, hi2, ?_, List.Nodup.sublist hsub hr2⟩
        intro x hx
        exact hr1 x (hsub.subset hx)
      have hcap1 : c + numAdds ops ≤ U64 := by simpa [numAdds] using hcap
      rw [hstep]
      obtain ⟨hinvf, hlenf⟩ := ih c _ _ hinv1 hcap1
      exact ⟨hinvf, by rw [hlenf]; simp [numAdds]⟩

/-- C6: Every handle issued during the process lifetime is unique — the
64-bit counter never wraps at realistic scales (the spec treats exhaustion
as unreachable, so the no-wraparound bound is a hypothesis): running any
sequence of add/remove registry operations from process start issues
pairwise-distinct handles, K adds yield K distinct handles, and the
registry always holds at most one `(handle, store)` pair per handle. -/
theorem handle_uniqueness (ops : List RegOp) (hcap : numAdds ops ≤ U64) :
    ((runRegOps ops (0, BasicSubject.new, [])).2.2).Nodup ∧
    (runRegOps ops (0, BasicSubject.new, [])).2.2.length = numAdds ops ∧
    ((runRegOps ops (0, BasicSubject.new, [])).2.1.trackers.map Prod.fst).Nodup := by
  have hinv0 : RegInv 0 BasicSubject.new [] := by
    refine ⟨by simp, by simp, ?_, ?_⟩ <;> simp [BasicSubject.new]
  obtain ⟨hinv, hlen⟩ :=
    runRegOps_inv ops 0 BasicSubject.new [] hinv0 (by simpa using hcap)
  exact ⟨hinv.2.1, by simpa using hlen, hinv.2.2.2⟩

theorem handle_uniqueness_witness :
    ((runRegOps [RegOp.add, RegOp.add, RegOp.remove ⟨0⟩, RegOp.add]
      (0, BasicSubject.new, [])).2.2).Nodup ∧
    (runRegOps [RegOp.add, RegOp.add, RegOp.remove ⟨0⟩, RegOp.add]
      (0, BasicSubject.new, [])).2.2.length
      = numAdds [RegOp.add, RegOp.add, RegOp.remove ⟨0⟩, RegOp.add] ∧
    ((runRegOps [RegOp.add, RegOp.add, RegOp.remove ⟨0⟩, RegOp.add]
      (0, BasicSubject.new, [])).2.1.trackers.map Prod.fst).Nodup :=
  handle_uniqueness [RegOp.add, RegOp.add, RegOp.remove ⟨0⟩, RegOp.add]
    (by norm_num [numAdds, U64])

/-- C8: In the threadsafe variant, lock acquisition for the subject or for
a tracker store (the two spin loops differ only in their error value `e`)
fails — with the lock-failed error — iff the first non-contended lock state
the retry loop observes is poisoned, and succeeds iff that state is a free
lock, so it never silently proceeds past poisoning; a contended observation
is retried internally and never surfaces as an error. -/
theorem ts_lock_fails_iff_poisoned (e : TsError) (obs : List LockObs) :
    (spinTryLock e obs = some (Except.error e) ↔
      (obs.dropWhile (fun o => o == LockObs.contended)).head?
        = some LockObs.poisoned) ∧
    (spinTryLock e obs = some (Except.ok ()) ↔
      (obs.dropWhile (fun o => o == LockObs.contended)).head?
        = some LockObs.free) ∧
    spinTryLock e (LockObs.contended :: obs) = spinTryLock e obs := by
  induction obs with
  | nil => exact ⟨by simp [spinTryLock], by simp [spinTryLock], rfl⟩
  | cons o obs ih =>
    cases o with
    | free =>
      refine ⟨?_, ?_, rfl⟩ <;> simp +decide [spinTryLock, List.dropWhile_cons]
    | contended =>
      refine ⟨?_, ?_, rfl⟩
      · simpa +decide [spinTryLock, List.dropWhile_cons] using ih.1
      · simpa +decide [spinTryLock, List.dropWhile_cons] using ih.2.1
    | poisoned =>
      refine ⟨?_, ?_, rfl⟩ <;> simp +decide [spinTryLock, List.dropWhile_cons]

theorem createTracker_ok (s : NtState M) (hflag : s.subject.borrowFlag = 0) :
    createTracker s = Except.ok
      (⟨(s.subject.value.add_tracker s.stores.length s.counter).1, s.stores.length⟩,
        { counter := (s.subject.value.add_tracker s.stores.length s.counter).2.2
          subject := ⟨(s.subject.value.add_tracker s.stores.length s.counter).2.1,
            s.subject.borrowFlag⟩
          stores := s.stores ++ [⟨BasicTracker.new, 0⟩] }) := by
  simp [createTracker, hflag]

theorem createTrackerW_ok (w : World M) (r : Nat) (cell : RefCell BasicSubject)
    (hcell : w.subjects[r]? = some cell) (hflag : cell.borrowFlag = 0) :
    createTrackerW w r = Except.ok
      (⟨(cell.value.add_tracker w.stores.length w.counter).1, w.stores.length⟩,
        ⟨(cell.value.add_tracker w.stores.length w.counter).2.2,
          w.subjects.set r
            ⟨(cell.value.add_tracker w.stores.length w.counter).2.1,
              cell.borrowFlag⟩,
          w.stores ++ [⟨BasicTracker.new, 0⟩]⟩) := by
  simp [createTrackerW, createTracker, subjectView, hcell, hflag]

theorem outputW_eq_output (w : World M) (s : NtState M) (t : OutputTracker)
    (h : w.stores = s.stores) : outputW w t = output s t := by
  simp [outputW, output, h]

theorem emitAllW_eq (items : List M) :
    ∀ (w : World M) (cell : RefCell BasicSubject) (r : Nat),
    w.subjects[r]? = some cell →
    Accessible (subjectView w cell) →
    (∀ p ∈ cell.value.trackers, p.2 < w.stores.length) →
    (emitAllW w r items).2 = (emitAll (subjectView w cell) items).2 ∧
    (emitAllW w r items).1.stores = (emitAll (subjectView w cell) items).1.stores := by
  induction items with
  | nil =>
    intro w cell r _ _ _
    exact ⟨rfl, rfl⟩
  | cons d ds ih =>
    intro w cell r hcell hacc hval
    obtain ⟨h0, h1, h2, h3, h4⟩ := emit_ok (subjectView w cell) d hacc hval
    rcases hres : emit (subjectView w cell) d with ⟨s1, e⟩
    rw [hres] at h0 h1 h2 h3
    have he : e = none := h0
    have h1c : s1.counter = w.counter := h1
    have h2c : s1.subject = cell := h2
    have h3c : s1.stores.length = w.stores.length := h3
    subst he
    have hrlt : r < w.subjects.length := (List.getElem?_eq_some.1 hcell).1
    have hstepW : emitAllW w r (d :: ds)
        = emitAllW ⟨s1.counter, w.subjects.set r s1.subject, s1.stores⟩ r ds := by
      simp only [emitAllW, emitW, hcell]
      rw [hres]
    have hstepS : emitAll (subjectView w cell) (d :: ds) = emitAll s1 ds := by
      rw [emitAll, hres]
    have hview : subjectView
        (⟨s1.counter, w.subjects.set r s1.subject, s1.stores⟩ : World M) cell
        = s1 := by
      show (⟨s1.counter, cell, s1.stores⟩ : NtState M) = s1
      rw [← h2c]
    have hc2 : (⟨s1.counter, w.subjects.set r s1.subject, s1.stores⟩
        : World M).subjects[r]? = some cell := by
      show (w.subjects.set r s1.subject)[r]? = some cell
      rw [List.getElem?_set_self hrlt, h2c]
    have hacc2 : Accessible (subjectView
        (⟨s1.counter, w.subjects.set r s1.subject, s1.stores⟩ : World M) cell) := by
      rw [hview]
      have ha := emit_accessible (subjectView w cell) d hacc hval
      rwa [hres] at ha
    have hval2 : ∀ p ∈ cell.value.trackers,
        p.2 < (⟨s1.counter, w.subjects.set r s1.subject, s1.stores⟩
          : World M).stores.length := by
      show ∀ p ∈ cell.value.trackers, p.2 < s1.stores.length
      rw [h3c]
      exact hval
    obtain ⟨g1, g2⟩ :=
      ih ⟨s1.counter, w.subjects.set r s1.subject, s1.stores⟩ cell r hc2 hacc2 hval2
    rw [hview] at g1 g2
    exact ⟨by rw [hstepW, hstepS]; exact g1, by rw [hstepW, hstepS]; exact g2⟩

/-- C7: Cloning a Subject yields a handle to the same underlying registry
allocation, not a copy — `cloneSubject` returns the same allocation index
and copies nothing — so a tracker created via the clone is registered in
the very registry the original references and receives every item
subsequently emitted via the original (and, the two being the same index,
vice versa). -/
theorem clone_shares_registry (w : World M) (r : Nat) (items : List M)
    (cell : RefCell BasicSubject)
    (hcell : w.subjects[r]? = some cell)
    (hacc : Accessible (subjectView w cell))
    (hval : ∀ p ∈ cell.value.trackers, p.2 < w.stores.length)
    (hsnodup : (cell.value.trackers.map Prod.snd).Nodup) :
    cloneSubject r = r ∧
    ∃ t w1, createTrackerW w (cloneSubject r) = Except.ok (t, w1) ∧
      (emitAllW w1 r items).2 = none ∧
      outputW (emitAllW w1 r items).1 t = Except.ok items := by
  refine ⟨rfl, ?_⟩
  have hrlt : r < w.subjects.length := (List.getElem?_eq_some.1 hcell).1
  have hctW : createTrackerW w (cloneSubject r) = Except.ok
      ((⟨(cell.value.add_tracker w.stores.length w.counter).1, w.stores.length⟩
          : OutputTracker),
        (⟨(cell.value.add_tracker w.stores.length w.counter).2.2,
          w.subjects.set r
            ⟨(cell.value.add_tracker w.stores.length w.counter).2.1,
              cell.borrowFlag⟩,
          w.stores ++ [⟨BasicTracker.new, 0⟩]⟩ : World M)) :=
    createTrackerW_ok w r cell hcell hacc.1
  have hacc1 : Accessible
      (⟨(cell.value.add_tracker w.stores.length w.counter).2.2,
        ⟨(cell.value.add_tracker w.stores.length w.counter).2.1, cell.borrowFlag⟩,
        w.stores ++ [⟨BasicTracker.new, 0⟩]⟩ : NtState M) := by
    refine ⟨hacc.1, ?_⟩
    intro c hc
    rcases List.mem_append.1 hc with h | h
    · exact hacc.2 c h
    · rw [List.mem_singleton.1 h]
  have hval1 : ∀ p ∈ (⟨(cell.value.add_tracker w.stores.length w.counter).2.2,
        ⟨(cell.value.add_tracker w.stores.length w.counter).2.1, cell.borrowFlag⟩,
        w.stores ++ [⟨BasicTracker.new, 0⟩]⟩
          : NtState M).subject.value.trackers,
      p.2 < (⟨(cell.value.add_tracker w.stores.length w.counter).2.2,
        ⟨(cell.value.add_tracker w.stores.length w.counter).2.1, cell.borrowFlag⟩,
        w.stores ++ [⟨BasicTracker.new, 0⟩]⟩ : NtState M).stores.length := by
    show ∀ p ∈ cell.value.trackers
        ++ [((cell.value.add_tracker w.stores.length w.counter).1, w.stores.length)],
      p.2 < (w.stores ++ [(⟨BasicTracker.new, 0⟩ : RefCell (BasicTracker M))]).length
    rw [List.length_append]
    intro p hp
    rcases List.mem_append.1 hp with h | h
    · exact Nat.lt_succ_of_lt (hval p h)
    · rw [List.mem_singleton.1 h]
      exact Nat.lt_succ_self _
  have hcellw1 : (⟨(cell.value.add_tracker w.stores.length w.counter).2.2,
        w.subjects.set r
          ⟨(cell.value.add_tracker w.stores.length w.counter).2.1, cell.borrowFlag⟩,
        w.stores ++ [⟨BasicTracker.new, 0⟩]⟩ : World M).subjects[r]?
      = some (⟨(cell.value.add_tracker w.stores.length w.counter).2.1,
          cell.borrowFlag⟩ : RefCell BasicSubject) := by
    show (w.subjects.set r
        (⟨(cell.value.add_tracker w.stores.length w.counter).2.1,
          cell.borrowFlag⟩ : RefCell BasicSubject))[r]?
      = some ⟨(cell.value.add_tracker w.stores.length w.counter).2.1, cell.borrowFlag⟩
    exact List.getElem?_set_self hrlt
  have haccview : Accessible (subjectView
      (⟨(cell.value.add_tracker w.stores.length w.counter).2.2,
        w.subjects.set r
          ⟨(cell.value.add_tracker w.stores.length w.counter).2.1, cell.borrowFlag⟩,
        w.stores ++ [⟨BasicTracker.new, 0⟩]⟩ : World M)
      (⟨(cell.value.add_tracker w.stores.length w.counter).2.1,
        cell.borrowFlag⟩ : RefCell BasicSubject)) := hacc1
  have hvalview : ∀ p ∈ (⟨(cell.value.add_tracker w.stores.length w.counter).2.1,
        cell.borrowFlag⟩ : RefCell BasicSubject).value.trackers,
      p.2 < (⟨(cell.value.add_tracker w.stores.length w.counter).2.2,
        w.subjects.set r
          ⟨(cell.value.add_tracker w.stores.length w.counter).2.1, cell.borrowFlag⟩,
        w.stores ++ [⟨BasicTracker.new, 0⟩]⟩ : World M).stores.length := hval1
  have htrans := emitAllW_eq items
    (⟨(cell.value.add_tracker w.stores.length w.counter).2.2,
      w.subjects.set r
        ⟨(cell.value.add_tracker w.stores.length w.counter).2.1, cell.borrowFlag⟩,
      w.stores ++ [⟨BasicTracker.new, 0⟩]⟩ : World M)
    (⟨(cell.value.add_tracker w.stores.length w.counter).2.1,
      cell.borrowFlag⟩ : RefCell BasicSubject) r hcellw1 haccview hvalview
  have hsnodup1 : ((⟨(cell.value.add_tracker w.stores.length w.counter).2.2,
        ⟨(cell.value.add_tracker w.stores.length w.counter).2.1, cell.borrowFlag⟩,
        w.stores ++ [⟨BasicTracker.new, 0⟩]⟩
          : NtState M).subject.value.trackers.map Prod.snd).Nodup := by
    show ((cell.value.trackers
        ++ [((cell.value.add_tracker w.stores.length w.counter).1,
          w.stores.length)]).map Prod.snd).Nodup
    rw [List.map_append, List.nodup_append]
    refine ⟨hsnodup, by simp, ?_⟩
    intro a ha ha2
    obtain ⟨p, hp, hpa⟩ := List.mem_map.1 ha
    rw [List.mem_singleton.1 ha2] at hpa
    have hlt := hval p hp
    rw [hpa] at hlt
    exact absurd hlt (by simp)
  obtain ⟨hall, hout⟩ := output_after_emitAll
    (⟨(cell.value.add_tracker w.stores.length w.counter).2.2,
      ⟨(cell.value.add_tracker w.stores.length w.counter).2.1, cell.borrowFlag⟩,
      w.stores ++ [⟨BasicTracker.new, 0⟩]⟩ : NtState M)
    ⟨(cell.value.add_tracker w.stores.length w.counter).1, w.stores.length⟩
    items ⟨BasicTracker.new, 0⟩ hacc1 hval1 hsnodup1
    (by
      show ((cell.value.add_tracker w.stores.length w.counter).1, w.stores.length)
        ∈ cell.value.trackers
          ++ [((cell.value.add_tracker w.stores.length w.counter).1, w.stores.length)]
      exact List.mem_append.2 (Or.inr (List.mem_singleton.2 rfl)))
    (by
      show (w.stores
        ++ [(⟨BasicTracker.new, 0⟩ : RefCell (BasicTracker M))])[w.stores.length]?
        = some ⟨BasicTracker.new, 0⟩
      exact List.getElem?_concat_length w.stores _)
  have hall2 : (emitAll (subjectView
      (⟨(cell.value.add_tracker w.stores.length w.counter).2.2,
        w.subjects.set r
          ⟨(cell.value.add_tracker w.stores.length w.counter).2.1, cell.borrowFlag⟩,
        w.stores ++ [⟨BasicTracker.new, 0⟩]⟩ : World M)
      (⟨(cell.value.add_tracker w.stores.length w.counter).2.1,
        cell.borrowFlag⟩ : RefCell BasicSubject)) items).2 = none := hall
  have hout2 : output (emitAll (subjectView
      (⟨(cell.value.add_tracker w.stores.length w.counter).2.2,
        w.subjects.set r
          ⟨(cell.value.add_tracker w.stores.length w.counter).2.1, cell.borrowFlag⟩,
        w.stores ++ [⟨BasicTracker.new, 0⟩]⟩ : World M)
      (⟨(cell.value.add_tracker w.stores.length w.counter).2.1,
        cell.borrowFlag⟩ : RefCell BasicSubject)) items).1
      ⟨(cell.value.add_tracker w.stores.length w.counter).1, w.stores.length⟩
      = Except.ok
        ((⟨BasicTracker.new, 0⟩ : RefCell (BasicTracker M)).value.tracked
          ++ items) := hout
  refine ⟨_, _, hctW, ?_, ?_⟩
  · rw [htrans.1]
    exact hall2
  · rw [outputW_eq_output _ _ _ htrans.2, hout2]
    simp [BasicTracker.new]

theorem clone_shares_registry_witness :
    cloneSubject 0 = 0 ∧
    ∃ t w1, createTrackerW wWorld (cloneSubject 0) = Except.ok (t, w1) ∧
      (emitAllW w1 0 [1, 2]).2 = none ∧
      outputW (emitAllW w1 0 [1, 2]).1 t = Except.ok [1, 2] :=
  clone_shares_registry wWorld 0 [1, 2] (RefCell.mk (BasicSubject.mk []) 0)
    (by decide) ⟨rfl, by decide⟩ (by decide) (by decide)

end OutputTrackerSpec
